import Mathlib

/-!
Shallow embedding of the game engine of the "Mighty Men" social-deduction
game (source files `src/worker.js` and `public/game-logic-client.js`, which
implement the same game logic for the two transports).  JavaScript strings
stay `String`, numbers over player ids and counters become `Nat`, JS objects
used as `playerId -> boolean` maps become association lists, thrown
exceptions become `Except String`, and `Math.random()`-derived values become
explicit oracle arguments.  A JS expression that would raise a `TypeError`
(e.g. reading a property of `undefined`) is modelled as an explicit error
value on the same control path.
-/

namespace MightyMen

/-- The eight game phases (`GAME_PHASES` in worker.js). -/
inductive Phase where
  | lobby
  | teamSelection
  | teamVote
  | voteResult
  | quest
  | questResult
  | assassination
  | gameOver
deriving DecidableEq, Repr

/-- The seven roles (`ROLES` in worker.js). -/
inductive Role where
  | samuel
  | david
  | mightyMan
  | saul
  | phinehas
  | doeg
  | sheep
deriving DecidableEq, Repr

/-- `GOOD_ROLES` from worker.js. -/
def GOOD_ROLES : List Role := [.samuel, .david, .mightyMan]

/-- `EVIL_ROLES` from worker.js. -/
def EVIL_ROLES : List Role := [.saul, .phinehas, .doeg, .sheep]

/-- `QUEST_SIZES` from worker.js: required team size for each of the 5 quests. -/
def QUEST_SIZES : List Nat := [3, 4, 5, 6, 6]

/-- `QUEST_FAIL_REQUIREMENTS` from worker.js: fails needed to sink each quest. -/
def QUEST_FAIL_REQUIREMENTS : List Nat := [1, 1, 1, 2, 1]

/-- One row of the `TEAM_COMPOSITION` table. -/
structure Composition where
  good : Nat
  evil : Nat
deriving DecidableEq, Repr

/-- `TEAM_COMPOSITION` from worker.js: good/evil split per player count;
keys other than 6..12 are absent (JS: `undefined`). -/
def TEAM_COMPOSITION (playerCount : Nat) : Option Composition :=
  match playerCount with
  | 6 => some ⟨4, 2⟩
  | 7 => some ⟨4, 3⟩
  | 8 => some ⟨5, 3⟩
  | 9 => some ⟨6, 3⟩
  | 10 => some ⟨6, 4⟩
  | 11 => some ⟨7, 4⟩
  | 12 => some ⟨8, 4⟩
  | _ => none

/-- `isEvil(role)` from worker.js: `EVIL_ROLES.includes(role)`. -/
def isEvil (role : Role) : Bool :=
  decide (role ∈ EVIL_ROLES)

/-- `isEvil` applied to a possibly-null role field (JS: `includes(null) = false`,
`includes(undefined) = false`). -/
def isEvilOpt (role : Option Role) : Bool :=
  match role with
  | some r => isEvil r
  | none => false

/-- One iteration of the Fisher-Yates loop body in `shuffleArray`:
`[arr[i], arr[j]] = [arr[j], arr[i]]` on a JS array, modelled on lists. -/
def listSwap {α : Type} (l : List α) (i j : Nat) : List α :=
  match l.get? i, l.get? j with
  | some a, some b => (l.set i b).set j a
  | _, _ => l

/-- The loop of `shuffleArray`: `for (let i = arr.length - 1; i > 0; i--)`.
`rand i` models `Math.floor(Math.random() * (i + 1))`; the `% (i + 1)`
reproduces exactly the codomain `0..i` that expression has. -/
def shuffleGo {α : Type} (rand : Nat → Nat) (arr : List α) : Nat → List α
  | 0 => arr
  | i + 1 => shuffleGo rand (listSwap arr (i + 1) (rand (i + 1) % (i + 2))) i

/-- `shuffleArray(array)` from worker.js (Fisher-Yates shuffle), with the
random draws supplied by the oracle `rand`. -/
def shuffleArray {α : Type} (rand : Nat → Nat) (array : List α) : List α :=
  shuffleGo rand array (array.length - 1)

/-- `assignRoles(playerCount)` from worker.js.  Returns `none` when the
composition lookup is `undefined` for both `playerCount` and
`min playerCount 12` (the JS code would then throw a `TypeError` reading
`composition.good`); for counts 6..12 it always succeeds.  The subtractions
`composition.good - 2` and `composition.evil - 2` never truncate because
every table row has `good ≥ 4` and `evil ≥ 2`. -/
def assignRoles (rand : Nat → Nat) (playerCount : Nat) : Option (List Role) :=
  match (TEAM_COMPOSITION playerCount).orElse
      (fun _ => TEAM_COMPOSITION (min playerCount 12)) with
  | none => none
  | some composition =>
    let roles0 : List Role := [.samuel, .david, .saul, .phinehas]
    let goodRemaining := composition.good - 2
    let evilRemaining := composition.evil - 2
    let roles1 := if 0 < evilRemaining then roles0 ++ [Role.doeg] else roles0
    let evilRemaining1 := if 0 < evilRemaining then evilRemaining - 1 else evilRemaining
    let roles2 := roles1 ++ List.replicate evilRemaining1 Role.sheep
    let roles3 := roles2 ++ List.replicate goodRemaining Role.mightyMan
    some (shuffleArray rand roles3)

/-- A roster entry (the player objects stored in `game.players`). -/
structure Player where
  id : Nat
  name : String
  role : Option Role
  isHost : Bool
  connected : Bool
  lastSeen : Nat
deriving DecidableEq, Repr

/-- `game.lastVoteResult` as stored by the `/api/vote` handler. -/
structure VoteResult where
  approved : Bool
  approveCount : Nat
  rejectCount : Nat
  votes : List (Nat × Bool)
  team : List Nat
deriving DecidableEq, Repr

/-- One entry of `game.questResults` as pushed by the `/api/quest` handler. -/
structure QuestResult where
  success : Bool
  failCount : Nat
  successCount : Nat
  team : List Nat
deriving DecidableEq, Repr

/-- Which camp won (`game.winner`: the strings `'good'` / `'evil'`). -/
inductive Winner where
  | good
  | evil
deriving DecidableEq, Repr

/-- The canonical game record created by `createGame` and mutated by the API
handlers.  JS objects keyed by player id (`votes`, `questVotes`) become
association lists in insertion order; fields that start out absent
(`lastVoteResult`) or `null` become `Option`s. -/
structure Game where
  code : String
  phase : Phase
  hostId : Nat
  players : List Player
  currentQuest : Nat
  questResults : List QuestResult
  leaderIndex : Nat
  proposedTeam : List Nat
  votes : List (Nat × Bool)
  questVotes : List (Nat × Bool)
  rejectCount : Nat
  lastVoteResult : Option VoteResult
  assassinationTarget : Option Nat
  winner : Option Winner
  winReason : Option String
  createdAt : Nat
  updatedAt : Nat
deriving DecidableEq, Repr

/-- `createGame(hostName)` from worker.js.  The random game code, the random
host id and `Date.now()` are oracle arguments. -/
def createGame (hostName : String) (hostId : Nat) (gameCode : String) (now : Nat) : Game :=
  { code := gameCode
    phase := .lobby
    hostId := hostId
    players := [{ id := hostId, name := hostName, role := none, isHost := true,
                  connected := true, lastSeen := now }]
    currentQuest := 0
    questResults := []
    leaderIndex := 0
    proposedTeam := []
    votes := []
    questVotes := []
    rejectCount := 0
    lastVoteResult := none
    assassinationTarget := none
    winner := none
    winReason := none
    createdAt := now
    updatedAt := now }

/-- JS object read `m[k]` (`undefined` becomes `none`). -/
def objGet (m : List (Nat × Bool)) (k : Nat) : Option Bool :=
  match m with
  | [] => none
  | (k', v) :: rest => if k' = k then some v else objGet rest k

/-- JS object write `m[k] = v`: overwrites an existing key in place, otherwise
appends the new key (JS property insertion order). -/
def objSet (m : List (Nat × Bool)) (k : Nat) (v : Bool) : List (Nat × Bool) :=
  match m with
  | [] => [(k, v)]
  | (k', v') :: rest => if k' = k then (k', v) :: rest else (k', v') :: objSet rest k v

/-- `Object.keys(m)`. -/
def objKeys (m : List (Nat × Bool)) : List Nat :=
  m.map Prod.fst

/-- `Object.values(m)`. -/
def objValues (m : List (Nat × Bool)) : List Bool :=
  m.map Prod.snd

/-- One entry of a knowledge `sees` list. -/
structure SeenPlayer where
  id : Nat
  name : String
  label : String
deriving DecidableEq, Repr

/-- The record returned by `getPlayerKnowledge`. -/
structure Knowledge where
  role : Role
  isEvil : Bool
  sees : List SeenPlayer
deriving DecidableEq, Repr

/-- `getPlayerKnowledge(game, playerId)` from worker.js: the player's own role
plus who they are permitted to see.  Returns `none` (JS: `null`) when the
player is absent or has no assigned role. -/
def getPlayerKnowledge (game : Game) (playerId : Nat) : Option Knowledge :=
  match game.players.find? (fun p => p.id == playerId) with
  | none => none
  | some player =>
    match player.role with
    | none => none
    | some role =>
      let sees : List SeenPlayer :=
        match role with
        | .samuel =>
          -- Sees all evil EXCEPT Saul
          (game.players.filter
            (fun p => isEvilOpt p.role && !(p.role == some Role.saul))).map
            (fun p => { id := p.id, name := p.name, label := "Evil" })
        | .david =>
          -- Sees Samuel and Phinehas but can't tell them apart
          (game.players.filter
            (fun p => p.role == some Role.samuel || p.role == some Role.phinehas)).map
            (fun p => { id := p.id, name := p.name, label := "Samuel or Phinehas" })
        | .saul | .phinehas | .sheep =>
          -- Evil players (except Doeg) see all other evil players except Doeg
          (game.players.filter
            (fun p => !(p.id == playerId) && isEvilOpt p.role
              && !(p.role == some Role.doeg))).map
            (fun p => { id := p.id, name := p.name, label := "Evil Ally" })
        | .doeg =>
          -- Knows nothing about other evil
          []
        | .mightyMan =>
          -- Knows nothing
          []
      some { role := role, isEvil := isEvil role, sees := sees }

/-- Roster entry of the public view: the role is only populated in the
game-over phase. -/
structure PublicPlayer where
  id : Nat
  name : String
  isHost : Bool
  connected : Bool
  role : Option Role
deriving DecidableEq, Repr

/-- One entry of `publicState.voteDetails`; `approved` is `undefined` (none)
when the vote map has no entry for the player. -/
structure VoteDetail where
  id : Nat
  name : String
  approved : Option Bool
deriving DecidableEq, Repr

/-- The redacted per-viewer snapshot returned by `getPublicGameState`.
Fields below `winReason` are only present (`some`) when the corresponding
branch of the JS function sets them. -/
structure PublicState where
  code : String
  phase : Phase
  playerCount : Nat
  players : List PublicPlayer
  currentQuest : Nat
  questResults : List QuestResult
  questSizes : List Nat
  questFailRequirements : List Nat
  leaderIndex : Nat
  leaderName : Option String
  proposedTeam : List Nat
  rejectCount : Nat
  winner : Option Winner
  winReason : Option String
  myId : Option Nat := none
  myName : Option String := none
  isHost : Option Bool := none
  isLeader : Option Bool := none
  isOnTeam : Option Bool := none
  votedPlayers : Option (List Nat) := none
  hasVoted : Option Bool := none
  lastVoteResult : Option VoteResult := none
  voteDetails : Option (List VoteDetail) := none
  questVotedPlayers : Option (List Nat) := none
  hasQuestVoted : Option Bool := none
  isSaul : Option Bool := none
  assassinationReady : Option Bool := none
  lastQuestResult : Option (Option QuestResult) := none
deriving DecidableEq, Repr

/-- `getPublicGameState(game, playerId)` from worker.js.  Returns `none`
exactly when the JS code would raise a `TypeError`: in the vote-result branch
it reads `game.lastVoteResult.votes`, which crashes when `lastVoteResult` is
absent. -/
def getPublicGameState (game : Game) (playerId : Nat) : Option PublicState :=
  let base : PublicState :=
    { code := game.code
      phase := game.phase
      playerCount := game.players.length
      players := game.players.map (fun p =>
        { id := p.id, name := p.name, isHost := p.isHost, connected := p.connected,
          -- Only show roles in game over phase
          role := if game.phase = Phase.gameOver then p.role else none })
      currentQuest := game.currentQuest
      questResults := game.questResults
      questSizes := QUEST_SIZES
      questFailRequirements := QUEST_FAIL_REQUIREMENTS
      leaderIndex := game.leaderIndex
      leaderName := (game.players.get? game.leaderIndex).map Player.name
      proposedTeam := game.proposedTeam
      rejectCount := game.rejectCount
      winner := game.winner
      winReason := game.winReason }
  match game.players.find? (fun p => p.id == playerId) with
  | none => some base
  | some player =>
    let s1 := { base with
      myId := some playerId
      myName := some player.name
      isHost := some player.isHost
      isLeader := some (((game.players.get? game.leaderIndex).map Player.id) == some playerId)
      isOnTeam := some (game.proposedTeam.contains playerId) }
    -- Show who has voted (but not what they voted)
    let s2 := if game.phase = Phase.teamVote then
        { s1 with votedPlayers := some (objKeys game.votes),
                  hasVoted := some (objGet game.votes playerId).isSome }
      else s1
    -- Vote result phase - show how everyone voted
    let s3? : Option PublicState :=
      if game.phase = Phase.voteResult then
        match game.lastVoteResult with
        | none => none
        | some lvr => some { s2 with
            lastVoteResult := some lvr
            voteDetails := some (game.players.map (fun p =>
              { id := p.id, name := p.name, approved := objGet lvr.votes p.id }))
            isHost := some player.isHost }
      else some s2
    match s3? with
    | none => none
    | some s3 =>
      -- Show who has submitted quest vote
      let s4 := if game.phase = Phase.quest then
          { s3 with questVotedPlayers := some (objKeys game.questVotes),
                    hasQuestVoted := some (objGet game.questVotes playerId).isSome }
        else s3
      -- Assassination phase - show to Saul
      let s5 := if game.phase = Phase.assassination then
          { s4 with isSaul := some (player.role == some Role.saul),
                    assassinationReady := some game.assassinationTarget.isSome }
        else s4
      -- Quest result phase
      let s6 := if game.phase = Phase.questResult then
          { s5 with lastQuestResult := some game.questResults.getLast?,
                    isHost := some player.isHost }
        else s5
      some s6

/-- Character-level model of JS `String.prototype.toLowerCase()` (the names
in this game are plain ASCII, for which `Char.toLower` agrees with JS). -/
def lowerString (s : String) : String :=
  ⟨s.data.map Char.toLower⟩

/-- Model of JS `String.prototype.trim()`: strip leading and trailing
whitespace. -/
def jsTrim (s : String) : String :=
  ⟨((s.data.dropWhile Char.isWhitespace).reverse.dropWhile Char.isWhitespace).reverse⟩

/-- Models `generatePlayerId()`: a fresh random id (a `crypto.randomUUID()`
fragment), assumed never to collide with an id already in the roster;
determinised as one more than the largest id present. -/
def freshPlayerId (game : Game) : Nat :=
  (game.players.map Player.id).foldr max 0 + 1

/-- `game.players.find(p => p.id === playerId)` followed by an in-place
mutation of the found object: rewrite the first matching entry. -/
def updateFirst (players : List Player) (playerId : Nat) (f : Player → Player) :
    List Player :=
  match players with
  | [] => []
  | p :: rest =>
    if p.id = playerId then f p :: rest else p :: updateFirst rest playerId f

/-- `game.players.forEach((player, index) => { player.role = roles[index] })`:
pair players with roles positionally; players beyond the role list would get
`undefined` (never happens: `assignRoles` returns exactly one role per
player). -/
def setRoles : List Player → List Role → List Player
  | [], _ => []
  | p :: ps, [] => { p with role := none } :: setRoles ps []
  | p :: ps, r :: rs => { p with role := some r } :: setRoles ps rs

/-- The majority test of the `/api/vote` handler:
`approveCount > game.players.length / 2`, where JS `/` is exact division
(exact in IEEE double for these magnitudes); the denominator is cleared to
keep the definition kernel-computable, and `majorityApproved_iff_ratHalf`
below proves it equal to the rational-division comparison. -/
def majorityApproved (approveCount n : Nat) : Bool :=
  decide (n < 2 * approveCount)

/-- The `/api/join` handler (per-game part, after the game record is
loaded). -/
def joinGame (game : Game) (name : String) (now : Nat) : Except String Game :=
  if game.phase ≠ Phase.lobby then
    .error "Game has already started"
  else if 12 ≤ game.players.length then
    .error "Game is full"
  else if game.players.any
      (fun p => lowerString p.name == lowerString (jsTrim name)) then
    .error "Name already taken"
  else
    let playerId := freshPlayerId game
    .ok { game with
      players := game.players ++
        [{ id := playerId, name := jsTrim name, role := none, isHost := false,
           connected := true, lastSeen := now }]
      updatedAt := now }

/-- The `/api/rejoin` handler.  Note: no phase check. -/
def rejoinGame (game : Game) (playerId : Nat) (now : Nat) : Except String Game :=
  match game.players.find? (fun p => p.id == playerId) with
  | none => .error "Player not found in this game"
  | some _ =>
    .ok { game with
      players := updateFirst game.players playerId
        (fun p => { p with connected := true, lastSeen := now })
      updatedAt := now }

/-- The `/api/start` handler.  `rand` feeds the role shuffle and `leaderPick`
models `Math.floor(Math.random() * game.players.length)` (reduced mod the
roster size, the codomain of that JS expression). -/
def startGame (game : Game) (playerId : Nat) (rand : Nat → Nat) (leaderPick : Nat)
    (now : Nat) : Except String Game :=
  if game.hostId ≠ playerId then
    .error "Only the host can start the game"
  else if game.phase ≠ Phase.lobby then
    .error "Game has already started"
  else if game.players.length < 6 then
    .error "Need at least 6 players to start"
  else
    match assignRoles rand game.players.length with
    | none => .error "TypeError: composition is undefined"
    | some roles =>
      .ok { game with
        players := setRoles game.players roles
        leaderIndex := leaderPick % game.players.length
        phase := Phase.teamSelection
        updatedAt := now }

/-- The `/api/propose` handler. -/
def proposeTeam (game : Game) (playerId : Nat) (team : List Nat) (now : Nat) :
    Except String Game :=
  if game.phase ≠ Phase.teamSelection then
    .error "Not in team selection phase"
  else
    match game.players.get? game.leaderIndex with
    | none => .error "TypeError: cannot read id of undefined"
    | some leader =>
      if leader.id ≠ playerId then
        .error "Only the leader can propose a team"
      else if (QUEST_SIZES.get? game.currentQuest) ≠ some team.length then
        -- `team.length !== requiredSize`; an out-of-range quest index gives
        -- `undefined`, which no length equals, so this also rejects then
        .error "Team must have exactly requiredSize members"
      else
        let validIds := game.players.map Player.id
        if ¬ team.all (fun id => validIds.contains id) then
          .error "Invalid team member"
        else
          .ok { game with
            proposedTeam := team
            votes := []
            phase := Phase.teamVote
            updatedAt := now }

/-- The `/api/vote` handler. -/
def voteAction (game : Game) (playerId : Nat) (approve : Bool) (now : Nat) :
    Except String Game :=
  if game.phase ≠ Phase.teamVote then
    .error "Not in voting phase"
  else if ¬ game.players.any (fun p => p.id == playerId) then
    .error "Player not found"
  else if (objGet game.votes playerId).isSome then
    .error "Already voted"
  else
    let votes := objSet game.votes playerId approve
    let g1 := { game with votes := votes, updatedAt := now }
    -- Check if all votes are in
    if (objKeys votes).length = g1.players.length then
      let approveCount := ((objValues votes).filter (fun v => v)).length
      let rejectCount := g1.players.length - approveCount
      let approved := majorityApproved approveCount g1.players.length
      .ok { g1 with
        lastVoteResult := some
          { approved := approved
            approveCount := approveCount
            rejectCount := rejectCount
            votes := votes
            team := g1.proposedTeam }
        phase := Phase.voteResult }
    else
      .ok g1

/-- The `/api/continue_vote` handler. -/
def continueFromVote (game : Game) (playerId : Nat) (now : Nat) :
    Except String Game :=
  if game.phase ≠ Phase.voteResult then
    .error "Not in vote result phase"
  else
    match game.players.find? (fun p => p.id == playerId) with
    | none => .error "Only the host can continue"
    | some player =>
      if ¬ player.isHost then
        .error "Only the host can continue"
      else
        match game.lastVoteResult with
        | none => .error "TypeError: cannot read approved of undefined"
        | some lvr =>
          if lvr.approved then
            .ok { game with
              questVotes := []
              phase := Phase.quest
              rejectCount := 0
              updatedAt := now }
          else if 5 ≤ game.rejectCount + 1 then
            .ok { game with
              rejectCount := game.rejectCount + 1
              phase := Phase.gameOver
              winner := some Winner.evil
              winReason := some "Five consecutive team proposals were rejected"
              updatedAt := now }
          else
            .ok { game with
              rejectCount := game.rejectCount + 1
              leaderIndex := (game.leaderIndex + 1) % game.players.length
              proposedTeam := []
              votes := []
              phase := Phase.teamSelection
              updatedAt := now }

/-- The `/api/quest` handler. -/
def questVoteAction (game : Game) (playerId : Nat) (success : Bool) (now : Nat) :
    Except String Game :=
  if game.phase ≠ Phase.quest then
    .error "Not in quest phase"
  else if ¬ game.proposedTeam.contains playerId then
    .error "You are not on this quest"
  else
    match game.players.find? (fun p => p.id == playerId) with
    | none => .error "TypeError: cannot read role of undefined"
    | some player =>
      -- Good players must vote success
      if !(isEvilOpt player.role) && !success then
        .error "Good players must support the quest"
      else if (objGet game.questVotes playerId).isSome then
        .error "Already submitted quest vote"
      else
        let questVotes := objSet game.questVotes playerId success
        let g1 := { game with questVotes := questVotes, updatedAt := now }
        -- Check if all quest votes are in
        if (objKeys questVotes).length = g1.proposedTeam.length then
          let failCount := ((objValues questVotes).filter (fun v => !v)).length
          let successCount := ((objValues questVotes).filter (fun v => v)).length
          let questSuccess :=
            match QUEST_FAIL_REQUIREMENTS.get? g1.currentQuest with
            | some failsRequired => decide (failCount < failsRequired)
            | none => false  -- JS: failCount < undefined is false
          .ok { g1 with
            questResults := g1.questResults ++
              [{ success := questSuccess, failCount := failCount,
                 successCount := successCount, team := g1.proposedTeam }]
            phase := Phase.questResult }
        else
          .ok g1

/-- The `/api/continue` handler (continue from quest result). -/
def continueFromQuest (game : Game) (playerId : Nat) (now : Nat) :
    Except String Game :=
  if game.phase ≠ Phase.questResult then
    .error "Not in quest result phase"
  else
    match game.players.find? (fun p => p.id == playerId) with
    | none => .error "Only the host can continue"
    | some player =>
      if ¬ player.isHost then
        .error "Only the host can continue"
      else
        let goodWins := (game.questResults.filter (fun r => r.success)).length
        let evilWins := (game.questResults.filter (fun r => !r.success)).length
        if 3 ≤ goodWins then
          .ok { game with phase := Phase.assassination, updatedAt := now }
        else if 3 ≤ evilWins then
          .ok { game with
            phase := Phase.gameOver
            winner := some Winner.evil
            winReason := some "Three quests failed"
            updatedAt := now }
        else
          .ok { game with
            currentQuest := game.currentQuest + 1
            leaderIndex := (game.leaderIndex + 1) % game.players.length
            proposedTeam := []
            votes := []
            questVotes := []
            phase := Phase.teamSelection
            updatedAt := now }

/-- The `/api/assassinate` handler. -/
def assassinateAction (game : Game) (playerId : Nat) (targetId : Nat) (now : Nat) :
    Except String Game :=
  if game.phase ≠ Phase.assassination then
    .error "Not in assassination phase"
  else
    match game.players.find? (fun p => p.id == playerId) with
    | none => .error "Only Saul can assassinate"
    | some player =>
      if player.role ≠ some Role.saul then
        .error "Only Saul can assassinate"
      else
        match game.players.find? (fun p => p.id == targetId) with
        | none => .error "Target not found"
        | some target =>
          if target.role = some Role.samuel then
            .ok { game with
              assassinationTarget := some targetId
              winner := some Winner.evil
              winReason := some "Saul correctly identified and eliminated Samuel"
              phase := Phase.gameOver
              updatedAt := now }
          else
            .ok { game with
              assassinationTarget := some targetId
              winner := some Winner.good
              winReason := some "Samuel survived the assassination attempt"
              phase := Phase.gameOver
              updatedAt := now }

/-- One submitted API action together with its oracle inputs (`Date.now()`
values and random draws). -/
inductive Action where
  | join (name : String) (now : Nat)
  | rejoin (playerId : Nat) (now : Nat)
  | start (playerId : Nat) (rand : Nat → Nat) (leaderPick : Nat) (now : Nat)
  | propose (playerId : Nat) (team : List Nat) (now : Nat)
  | vote (playerId : Nat) (approve : Bool) (now : Nat)
  | continueVote (playerId : Nat) (now : Nat)
  | questVote (playerId : Nat) (success : Bool) (now : Nat)
  | continueQuest (playerId : Nat) (now : Nat)
  | assassinate (playerId : Nat) (targetId : Nat) (now : Nat)

/-- Dispatch one action against a loaded game record. -/
def applyAction (game : Game) : Action → Except String Game
  | .join name now => joinGame game name now
  | .rejoin playerId now => rejoinGame game playerId now
  | .start playerId rand leaderPick now => startGame game playerId rand leaderPick now
  | .propose playerId team now => proposeTeam game playerId team now
  | .vote playerId approve now => voteAction game playerId approve now
  | .continueVote playerId now => continueFromVote game playerId now
  | .questVote playerId success now => questVoteAction game playerId success now
  | .continueQuest playerId now => continueFromQuest game playerId now
  | .assassinate playerId targetId now => assassinateAction game playerId targetId now

/-- Game states reachable from a freshly created game by accepted actions
(a rejected action throws before the store is written, so it leaves no
trace). -/
inductive Reachable : Game → Prop where
  | init (hostName : String) (hostId : Nat) (gameCode : String) (now : Nat) :
      Reachable (createGame hostName hostId gameCode now)
  | step {g g' : Game} (a : Action) :
      Reachable g → applyAction g a = .ok g' → Reachable g'

/-! ### Basic lemmas about the embedded primitives -/

/-- The integer-form majority test agrees with the source's
`approveCount > n / 2` over exact rational division. -/
theorem majorityApproved_iff_ratHalf (approveCount n : Nat) :
    majorityApproved approveCount n = true ↔ (n : ℚ) / 2 < (approveCount : ℚ) := by
  rw [majorityApproved, decide_eq_true_iff, div_lt_iff₀ (by norm_num : (0 : ℚ) < 2)]
  constructor
  · intro h
    exact_mod_cast Nat.lt_of_lt_of_le h (by omega)
  · intro h
    have : (n : ℚ) < (2 * approveCount : Nat) := by push_cast; linarith
    exact_mod_cast this

theorem count_set {α : Type} [DecidableEq α] (l : List α) (n : Nat) (a x : α)
    (hn : n < l.length) :
    (l.set n a).count x + (if l[n] = x then 1 else 0) =
      l.count x + (if a = x then 1 else 0) := by
  induction l generalizing n with
  | nil => simp at hn
  | cons b t ih =>
    cases n with
    | zero =>
      simp only [List.set_cons_zero, List.count_cons, List.getElem_cons_zero]
      by_cases hbx : b = x <;> by_cases hax : a = x <;>
        simp [hbx, hax, beq_iff_eq]
    | succ n =>
      have hn' : n < t.length := by simpa using hn
      have := ih n hn'
      simp only [List.set_cons_succ, List.count_cons, List.getElem_cons_succ]
      by_cases hbx : b = x <;> simp [hbx, beq_iff_eq] <;> omega

theorem listSwap_perm {α : Type} [DecidableEq α] (l : List α) (i j : Nat) :
    List.Perm (listSwap l i j) l := by
  unfold listSwap
  cases hi : l.get? i with
  | none => exact List.Perm.refl _
  | some a =>
    cases hj : l.get? j with
    | none => exact List.Perm.refl _
    | some b =>
      have hilen : i < l.length := (List.get?_eq_some.mp hi).choose
      have hjlen : j < l.length := (List.get?_eq_some.mp hj).choose
      have hia : l[i] = a := by
        have := (List.get?_eq_some.mp hi).choose_spec
        simpa [List.get_eq_getElem] using this
      have hjb : l[j] = b := by
        have := (List.get?_eq_some.mp hj).choose_spec
        simpa [List.get_eq_getElem] using this
      have hjlen' : j < (l.set i b).length := by simpa using hjlen
      have hgetj : (l.set i b)[j] = b := by
        by_cases hij : i = j
        · subst hij
          simp
        · rw [List.getElem_set_ne hij]
          exact hjb
      rw [List.perm_iff_count]
      intro x
      have h1 := count_set (l.set i b) j a x hjlen'
      have h2 := count_set l i b x hilen
      rw [hgetj] at h1
      rw [hia] at h2
      by_cases hbx : b = x <;> by_cases hax : a = x <;>
        simp [hbx, hax] at h1 h2 ⊢ <;> omega

theorem shuffleGo_perm {α : Type} [DecidableEq α] (rand : Nat → Nat)
    (arr : List α) (n : Nat) : List.Perm (shuffleGo rand arr n) arr := by
  induction n generalizing arr with
  | zero => exact List.Perm.refl _
  | succ n ih =>
    exact (ih _).trans (listSwap_perm arr (n + 1) (rand (n + 1) % (n + 2)))

/-- The Fisher-Yates shuffle returns a permutation of its input. -/
theorem shuffleArray_perm {α : Type} [DecidableEq α] (rand : Nat → Nat)
    (array : List α) : List.Perm (shuffleArray rand array) array :=
  shuffleGo_perm rand array (array.length - 1)

/-- Length and per-role counts are invariant under the shuffle, so they can
be read off the pre-shuffle role list. -/
theorem shuffle_roleStats (rand : Nat → Nat) (base : List Role)
    (n evil dg : Nat)
    (hlen : base.length = n)
    (hevil : base.countP (fun r => isEvil r) = evil)
    (hsam : base.count Role.samuel = 1)
    (hdav : base.count Role.david = 1)
    (hsaul : base.count Role.saul = 1)
    (hphin : base.count Role.phinehas = 1)
    (hdoeg : base.count Role.doeg = dg) :
    (shuffleArray rand base).length = n ∧
    (shuffleArray rand base).countP (fun r => isEvil r) = evil ∧
    (shuffleArray rand base).count Role.samuel = 1 ∧
    (shuffleArray rand base).count Role.david = 1 ∧
    (shuffleArray rand base).count Role.saul = 1 ∧
    (shuffleArray rand base).count Role.phinehas = 1 ∧
    (shuffleArray rand base).count Role.doeg = dg := by
  have hp := shuffleArray_perm rand base
  exact ⟨hp.length_eq.trans hlen, (hp.countP_eq _).trans hevil,
    (hp.count_eq _).trans hsam, (hp.count_eq _).trans hdav,
    (hp.count_eq _).trans hsaul, (hp.count_eq _).trans hphin,
    (hp.count_eq _).trans hdoeg⟩

/-! ### C8: role assignment respects the composition table -/

/-- C8: for every supported party size 6..12, `assignRoles` returns a role
sequence whose length is the party size, whose evil count matches the fixed
composition table, which has exactly one each of Samuel, David, Saul and
Phinehas, and which contains Doeg iff the evil quota exceeds the two evil
specials. -/
theorem assignRoles_spec (playerCount : Nat) (h6 : 6 ≤ playerCount)
    (h12 : playerCount ≤ 12) (rand : Nat → Nat) :
    ∃ comp roles,
      TEAM_COMPOSITION playerCount = some comp ∧
      assignRoles rand playerCount = some roles ∧
      roles.length = playerCount ∧
      roles.countP (fun r => isEvil r) = comp.evil ∧
      roles.count Role.samuel = 1 ∧
      roles.count Role.david = 1 ∧
      roles.count Role.saul = 1 ∧
      roles.count Role.phinehas = 1 ∧
      roles.count Role.doeg = (if 2 < comp.evil then 1 else 0) := by
  interval_cases playerCount
  · exact ⟨⟨4, 2⟩, _, rfl, rfl, by
      simpa using shuffle_roleStats rand _ 6 2 0 (by decide) (by decide)
        (by decide) (by decide) (by decide) (by decide) (by decide)⟩
  · exact ⟨⟨4, 3⟩, _, rfl, rfl, by
      simpa using shuffle_roleStats rand _ 7 3 1 (by decide) (by decide)
        (by decide) (by decide) (by decide) (by decide) (by decide)⟩
  · exact ⟨⟨5, 3⟩, _, rfl, rfl, by
      simpa using shuffle_roleStats rand _ 8 3 1 (by decide) (by decide)
        (by decide) (by decide) (by decide) (by decide) (by decide)⟩
  · exact ⟨⟨6, 3⟩, _, rfl, rfl, by
      simpa using shuffle_roleStats rand _ 9 3 1 (by decide) (by decide)
        (by decide) (by decide) (by decide) (by decide) (by decide)⟩
  · exact ⟨⟨6, 4⟩, _, rfl, rfl, by
      simpa using shuffle_roleStats rand _ 10 4 1 (by decide) (by decide)
        (by decide) (by decide) (by decide) (by decide) (by decide)⟩
  · exact ⟨⟨7, 4⟩, _, rfl, rfl, by
      simpa using shuffle_roleStats rand _ 11 4 1 (by decide) (by decide)
        (by decide) (by decide) (by decide) (by decide) (by decide)⟩
  · exact ⟨⟨8, 4⟩, _, rfl, rfl, by
      simpa using shuffle_roleStats rand _ 12 4 1 (by decide) (by decide)
        (by decide) (by decide) (by decide) (by decide) (by decide)⟩

/-- Witness for C8 at party size 7 with a concrete random stream. -/
theorem assignRoles_spec_witness :
    6 ≤ 7 ∧ 7 ≤ 12 ∧
    ∃ comp roles,
      TEAM_COMPOSITION 7 = some comp ∧
      assignRoles (fun _ => 0) 7 = some roles ∧
      roles.length = 7 ∧
      roles.countP (fun r => isEvil r) = comp.evil ∧
      roles.count Role.samuel = 1 ∧
      roles.count Role.david = 1 ∧
      roles.count Role.saul = 1 ∧
      roles.count Role.phinehas = 1 ∧
      roles.count Role.doeg = (if 2 < comp.evil then 1 else 0) :=
  ⟨by decide, by decide, assignRoles_spec 7 (by decide) (by decide) (fun _ => 0)⟩

/-! ### C1: the public view redacts roles until game over -/

/-- Whatever branch `getPublicGameState` takes, the roster it returns is the
base projection: role shown only in the game-over phase. -/
theorem getPublicGameState_players (g : Game) (viewerId : Nat) (ps : PublicState)
    (h : getPublicGameState g viewerId = some ps) :
    ps.players = g.players.map (fun p =>
      { id := p.id, name := p.name, isHost := p.isHost, connected := p.connected,
        role := if g.phase = Phase.gameOver then p.role else none }) := by
  cases hf : g.players.find? (fun p => p.id == viewerId) with
  | none =>
    simp only [getPublicGameState, hf] at h
    cases h
    rfl
  | some player =>
    cases hph : g.phase with
    | voteResult =>
      cases hlvr : g.lastVoteResult with
      | none => simp [getPublicGameState, hf, hph, hlvr] at h
      | some lvr =>
        simp only [getPublicGameState, hf, hph, hlvr] at h
        simp at h
        cases h
        simp [hph]
    | _ =>
      simp only [getPublicGameState, hf, hph] at h
      simp at h
      cases h
      simp [hph]

/-- C1: the public view returned by `getPublicGameState` carries no role for
any player unless the phase is game over, in which case it carries every
player's stored role, for every viewer. -/
theorem publicView_role_redaction (g : Game) (viewerId : Nat) (ps : PublicState)
    (h : getPublicGameState g viewerId = some ps) :
    (g.phase ≠ Phase.gameOver → ∀ pp ∈ ps.players, pp.role = none) ∧
    (g.phase = Phase.gameOver → ps.players = g.players.map (fun p =>
      { id := p.id, name := p.name, isHost := p.isHost, connected := p.connected,
        role := p.role })) := by
  have hp := getPublicGameState_players g viewerId ps h
  constructor
  · intro hne pp hpp
    rw [hp] at hpp
    simp only [List.mem_map] at hpp
    obtain ⟨p, _, rfl⟩ := hpp
    simp [hne]
  · intro heq
    rw [hp]
    simp [heq]

/-- A one-player finished game used as concrete input for witnesses. -/
def exampleOverGame : Game :=
  { code := "G", phase := .gameOver, hostId := 1
    players := [
      { id := 1, name := "Ann", role := some .samuel, isHost := true,
        connected := true, lastSeen := 0 },
      { id := 2, name := "Bob", role := some .saul, isHost := false,
        connected := false, lastSeen := 0 }]
    currentQuest := 2, questResults := [], leaderIndex := 0, proposedTeam := []
    votes := [], questVotes := [], rejectCount := 0, lastVoteResult := none
    assassinationTarget := some 1, winner := some .evil
    winReason := some "Saul correctly identified and eliminated Samuel"
    createdAt := 0, updatedAt := 0 }

/-- An inert public state used only as an `Option.getD` default. -/
def emptyView : PublicState :=
  { code := "", phase := .lobby, playerCount := 0, players := [], currentQuest := 0
    questResults := [], questSizes := [], questFailRequirements := []
    leaderIndex := 0, leaderName := none, proposedTeam := [], rejectCount := 0
    winner := none, winReason := none }

/-- The concrete view `exampleOverGame` shows to player 1. -/
def exampleOverView : PublicState :=
  (getPublicGameState exampleOverGame 1).getD emptyView

/-- Witness for C1: in the finished example game the roster handed out
includes every player's role. -/
theorem publicView_role_redaction_witness :
    getPublicGameState exampleOverGame 1 = some exampleOverView ∧
    exampleOverView.players = exampleOverGame.players.map (fun p =>
      { id := p.id, name := p.name, isHost := p.isHost, connected := p.connected,
        role := p.role }) :=
  ⟨by decide,
    (publicView_role_redaction exampleOverGame 1 exampleOverView (by decide)).2 rfl⟩

/-! ### C2, C3: knowledge projections -/

/-- With duplicate-free ids, looking a member up by its own id finds exactly
that member. -/
theorem find?_id_eq_self (players : List Player) (p : Player)
    (hnd : (players.map Player.id).Nodup) (hp : p ∈ players) :
    players.find? (fun q => q.id == p.id) = some p := by
  induction players with
  | nil => simp at hp
  | cons q rest ih =>
    simp only [List.map_cons, List.nodup_cons] at hnd
    rcases List.mem_cons.mp hp with rfl | hp'
    · simp [List.find?_cons]
    · have hne : (q.id == p.id) = false := by
        rw [beq_eq_false_iff_ne]
        intro he
        exact hnd.1 (he ▸ List.mem_map_of_mem Player.id hp')
      rw [List.find?_cons, hne]
      exact ih hnd.2 hp'

/-- C2: with assigned roles and duplicate-free ids, the Doeg player's `sees`
list is empty, and no Saul, Phinehas or Sheep player's `sees` list contains
the Doeg player. -/
theorem doeg_symmetric_exclusion (g : Game)
    (hnd : (g.players.map Player.id).Nodup)
    (d : Player) (hd : d ∈ g.players) (hdrole : d.role = some Role.doeg) :
    (∃ k, getPlayerKnowledge g d.id = some k ∧ k.sees = []) ∧
    (∀ q ∈ g.players, ∀ r, q.role = some r →
      (r = Role.saul ∨ r = Role.phinehas ∨ r = Role.sheep) →
      ∀ k, getPlayerKnowledge g q.id = some k →
        ∀ e ∈ k.sees, e.id ≠ d.id) := by
  constructor
  · refine ⟨⟨.doeg, isEvil .doeg, []⟩, ?_, rfl⟩
    simp [getPlayerKnowledge, find?_id_eq_self g.players d hnd hd, hdrole]
  · intro q hq r hqrole hrcases k hk e he hed
    have hsees : e ∈ (g.players.filter
        (fun p => !(p.id == q.id) && isEvilOpt p.role
          && !(p.role == some Role.doeg))).map
        (fun p => ({ id := p.id, name := p.name, label := "Evil Ally" } :
          SeenPlayer)) := by
      rcases hrcases with rfl | rfl | rfl <;>
      · simp only [getPlayerKnowledge, find?_id_eq_self g.players q hnd hq,
          hqrole, Option.some.injEq] at hk
        subst hk
        exact he
    simp only [List.mem_map] at hsees
    obtain ⟨p, hpf, rfl⟩ := hsees
    have hpmem := List.mem_filter.mp hpf
    have hpd : p = d :=
      List.inj_on_of_nodup_map hnd hpmem.1 hd hed
    have hflt := hpmem.2
    rw [hpd, hdrole] at hflt
    simp at hflt

/-- C3: with assigned roles and duplicate-free ids, the David player's
knowledge lists exactly the Samuel-role and Phinehas-role holders, every
entry bearing the single ambiguous label. -/
theorem david_sees_samuel_or_phinehas (g : Game)
    (hnd : (g.players.map Player.id).Nodup)
    (dv : Player) (hdv : dv ∈ g.players) (hdvrole : dv.role = some Role.david) :
    ∃ k, getPlayerKnowledge g dv.id = some k ∧
      (∀ e ∈ k.sees, e.label = "Samuel or Phinehas" ∧
        ∃ q ∈ g.players, q.id = e.id ∧ q.name = e.name ∧
          (q.role = some Role.samuel ∨ q.role = some Role.phinehas)) ∧
      (∀ q ∈ g.players, (q.role = some Role.samuel ∨ q.role = some Role.phinehas) →
        ∃ e ∈ k.sees, e.id = q.id ∧ e.name = q.name ∧
          e.label = "Samuel or Phinehas") := by
  refine ⟨⟨.david, isEvil .david,
      (g.players.filter
        (fun p => p.role == some Role.samuel || p.role == some Role.phinehas)).map
        (fun p => { id := p.id, name := p.name, label := "Samuel or Phinehas" })⟩,
    ?_, ?_, ?_⟩
  · simp [getPlayerKnowledge, find?_id_eq_self g.players dv hnd hdv, hdvrole]
  · intro e he
    simp only [List.mem_map] at he
    obtain ⟨p, hpf, rfl⟩ := he
    have hpmem := List.mem_filter.mp hpf
    have hprole := hpmem.2
    simp only [Bool.or_eq_true, beq_iff_eq] at hprole
    exact ⟨rfl, p, hpmem.1, rfl, rfl, hprole⟩
  · intro q hq hqrole
    refine ⟨{ id := q.id, name := q.name, label := "Samuel or Phinehas" }, ?_,
      rfl, rfl, rfl⟩
    simp only [List.mem_map]
    refine ⟨q, List.mem_filter.mpr ⟨hq, ?_⟩, rfl⟩
    simp only [Bool.or_eq_true, beq_iff_eq]
    exact hqrole

/-- A seven-player game with assigned roles, used as concrete witness
input for the knowledge claims. -/
def knowledgeGame : Game :=
  { code := "G", phase := .teamSelection, hostId := 1
    players := [
      { id := 1, name := "A", role := some .samuel, isHost := true,
        connected := true, lastSeen := 0 },
      { id := 2, name := "B", role := some .david, isHost := false,
        connected := true, lastSeen := 0 },
      { id := 3, name := "C", role := some .saul, isHost := false,
        connected := true, lastSeen := 0 },
      { id := 4, name := "D", role := some .phinehas, isHost := false,
        connected := true, lastSeen := 0 },
      { id := 5, name := "E", role := some .doeg, isHost := false,
        connected := true, lastSeen := 0 },
      { id := 6, name := "F", role := some .mightyMan, isHost := false,
        connected := true, lastSeen := 0 },
      { id := 7, name := "H", role := some .mightyMan, isHost := false,
        connected := true, lastSeen := 0 }]
    currentQuest := 0, questResults := [], leaderIndex := 0, proposedTeam := []
    votes := [], questVotes := [], rejectCount := 0, lastVoteResult := none
    assassinationTarget := none, winner := none, winReason := none
    createdAt := 0, updatedAt := 0 }

/-- The Doeg roster entry of `knowledgeGame`. -/
def knowledgeGameDoeg : Player :=
  { id := 5, name := "E", role := some .doeg, isHost := false,
    connected := true, lastSeen := 0 }

/-- Witness for C2 on the seven-player example game. -/
theorem doeg_symmetric_exclusion_witness :
    (knowledgeGame.players.map Player.id).Nodup ∧
    knowledgeGameDoeg ∈ knowledgeGame.players ∧
    ((∃ k, getPlayerKnowledge knowledgeGame knowledgeGameDoeg.id = some k ∧
        k.sees = []) ∧
      (∀ q ∈ knowledgeGame.players, ∀ r, q.role = some r →
        (r = Role.saul ∨ r = Role.phinehas ∨ r = Role.sheep) →
        ∀ k, getPlayerKnowledge knowledgeGame q.id = some k →
          ∀ e ∈ k.sees, e.id ≠ knowledgeGameDoeg.id)) :=
  ⟨by decide, by decide,
    doeg_symmetric_exclusion knowledgeGame (by decide) knowledgeGameDoeg
      (by decide) rfl⟩

/-- The David roster entry of `knowledgeGame`. -/
def knowledgeGameDavid : Player :=
  { id := 2, name := "B", role := some .david, isHost := false,
    connected := true, lastSeen := 0 }

/-- Witness for C3 on the seven-player example game. -/
theorem david_sees_samuel_or_phinehas_witness :
    (knowledgeGame.players.map Player.id).Nodup ∧
    knowledgeGameDavid ∈ knowledgeGame.players ∧
    (∃ k, getPlayerKnowledge knowledgeGame knowledgeGameDavid.id = some k ∧
      (∀ e ∈ k.sees, e.label = "Samuel or Phinehas" ∧
        ∃ q ∈ knowledgeGame.players, q.id = e.id ∧ q.name = e.name ∧
          (q.role = some Role.samuel ∨ q.role = some Role.phinehas)) ∧
      (∀ q ∈ knowledgeGame.players,
        (q.role = some Role.samuel ∨ q.role = some Role.phinehas) →
        ∃ e ∈ k.sees, e.id = q.id ∧ e.name = q.name ∧
          e.label = "Samuel or Phinehas")) :=
  ⟨by decide, by decide,
    david_sees_samuel_or_phinehas knowledgeGame (by decide) knowledgeGameDavid
      (by decide) rfl⟩

/-! ### C4: strict majority on team votes -/

/-- C4: when the vote that completes the round is recorded (the resulting
phase is vote-result), the stored tally is approved iff the approve count
strictly exceeds half the roster size, under exact rational division. -/
theorem vote_strict_majority (g g' : Game) (pid : Nat) (ap : Bool) (now : Nat)
    (h : voteAction g pid ap now = .ok g') (hres : g'.phase = Phase.voteResult) :
    ∃ lvr, g'.lastVoteResult = some lvr ∧
      (lvr.approved = true ↔
        ((g.players.length : ℚ) / 2 < (lvr.approveCount : ℚ))) := by
  unfold voteAction at h
  split_ifs at h with h1 h2 h3
  simp only [] at h
  split at h
  · rw [Except.ok.injEq] at h
    subst h
    exact ⟨_, rfl, majorityApproved_iff_ratHalf _ g.players.length⟩
  · rw [Except.ok.injEq] at h
    subst h
    have hphase : g.phase = Phase.teamVote := not_not.mp h1
    have hres' : g.phase = Phase.voteResult := hres
    rw [hphase] at hres'
    exact absurd hres' (by decide)

/-- Equality of action results is decidable (used by concrete witnesses). -/
instance : DecidableEq (Except String Game)
  | .error a, .error b =>
    if h : a = b then .isTrue (by rw [h]) else .isFalse (by simp [h])
  | .error _, .ok _ => .isFalse (by simp)
  | .ok _, .error _ => .isFalse (by simp)
  | .ok a, .ok b =>
    if h : a = b then .isTrue (by rw [h]) else .isFalse (by simp [h])

/-- Fallback extractor for `Except` results used to name concrete
post-states in witnesses. -/
def okOr (e : Except String Game) (d : Game) : Game :=
  match e with
  | .ok g => g
  | .error _ => d

/-- A six-player game in the team-vote phase with five votes already cast
(two approve, three reject). -/
def voteGame : Game :=
  { code := "G", phase := .teamVote, hostId := 1
    players := [
      { id := 1, name := "A", role := some .samuel, isHost := true,
        connected := true, lastSeen := 0 },
      { id := 2, name := "B", role := some .david, isHost := false,
        connected := true, lastSeen := 0 },
      { id := 3, name := "C", role := some .saul, isHost := false,
        connected := true, lastSeen := 0 },
      { id := 4, name := "D", role := some .phinehas, isHost := false,
        connected := true, lastSeen := 0 },
      { id := 5, name := "E", role := some .mightyMan, isHost := false,
        connected := true, lastSeen := 0 },
      { id := 6, name := "F", role := some .mightyMan, isHost := false,
        connected := true, lastSeen := 0 }]
    currentQuest := 0, questResults := [], leaderIndex := 0
    proposedTeam := [1, 2, 3]
    votes := [(1, true), (2, true), (3, false), (4, false), (5, false)]
    questVotes := [], rejectCount := 0, lastVoteResult := none
    assassinationTarget := none, winner := none, winReason := none
    createdAt := 0, updatedAt := 0 }

/-- `voteGame` after player 6 casts the sixth (approving) vote. -/
def voteGameAfter : Game :=
  okOr (voteAction voteGame 6 true 1) voteGame

/-- The tally `voteGameAfter` stores. -/
def voteGameLvr : VoteResult :=
  voteGameAfter.lastVoteResult.getD ⟨false, 0, 0, [], []⟩

/-- Witness for C4: six players, exactly three approvals, rejected. -/
theorem vote_strict_majority_witness :
    voteAction voteGame 6 true 1 = Except.ok voteGameAfter ∧
    voteGameAfter.phase = Phase.voteResult ∧
    (∃ lvr, voteGameAfter.lastVoteResult = some lvr ∧
      (lvr.approved = true ↔
        ((voteGame.players.length : ℚ) / 2 < (lvr.approveCount : ℚ)))) ∧
    voteGame.players.length = 6 ∧
    voteGameAfter.lastVoteResult = some voteGameLvr ∧
    voteGameLvr.approveCount = 3 ∧
    voteGameLvr.approved = false :=
  ⟨by decide, by decide,
    vote_strict_majority voteGame voteGameAfter 6 true 1 (by decide) (by decide),
    by decide, by decide, by decide, by decide⟩

/-! ### C5: Good players cannot fail a quest -/

/-- C5: in the quest phase, a fail vote (`success = false`) from a
Good-role team member is rejected with an error; since the handler throws
before any mutation and persists nothing on a throw, the quest-vote map is
untouched. -/
theorem questVote_good_fail_rejected (g : Game) (pid now : Nat) (p : Player)
    (r : Role) (hphase : g.phase = Phase.quest)
    (hteam : g.proposedTeam.contains pid = true)
    (hfind : g.players.find? (fun q => q.id == pid) = some p)
    (hrole : p.role = some r) (hgood : r ∈ GOOD_ROLES) :
    questVoteAction g pid false now =
      .error "Good players must support the quest" := by
  have hevil : isEvil r = false := by
    have h3 : r = Role.samuel ∨ r = Role.david ∨ r = Role.mightyMan := by
      simpa [GOOD_ROLES] using hgood
    rcases h3 with rfl | rfl | rfl <;> decide
  have hmem : pid ∈ g.proposedTeam := List.elem_iff.mp hteam
  simp [questVoteAction, hphase, hteam, hmem, hfind, hrole, isEvilOpt, hevil]

/-- A six-player game in the quest phase, quest index 3, with a team of six
and five success votes already submitted. -/
def questGame : Game :=
  { code := "G", phase := .quest, hostId := 1
    players := [
      { id := 1, name := "A", role := some .samuel, isHost := true,
        connected := true, lastSeen := 0 },
      { id := 2, name := "B", role := some .david, isHost := false,
        connected := true, lastSeen := 0 },
      { id := 3, name := "C", role := some .mightyMan, isHost := false,
        connected := true, lastSeen := 0 },
      { id := 4, name := "D", role := some .mightyMan, isHost := false,
        connected := true, lastSeen := 0 },
      { id := 5, name := "E", role := some .phinehas, isHost := false,
        connected := true, lastSeen := 0 },
      { id := 6, name := "F", role := some .saul, isHost := false,
        connected := true, lastSeen := 0 }]
    currentQuest := 3, questResults := [], leaderIndex := 0
    proposedTeam := [1, 2, 3, 4, 5, 6]
    votes := []
    questVotes := [(1, true), (2, true), (3, true), (4, true), (5, true)]
    rejectCount := 0, lastVoteResult := none
    assassinationTarget := none, winner := none, winReason := none
    createdAt := 0, updatedAt := 0 }

/-- The Samuel roster entry of `questGame`. -/
def questGameSamuel : Player :=
  { id := 1, name := "A", role := some .samuel, isHost := true,
    connected := true, lastSeen := 0 }

/-- Witness for C5: Samuel trying to fail the quest is rejected. -/
theorem questVote_good_fail_rejected_witness :
    questGame.phase = Phase.quest ∧
    questGame.proposedTeam.contains 1 = true ∧
    questGame.players.find? (fun q => q.id == 1) = some questGameSamuel ∧
    questGameSamuel.role = some Role.samuel ∧
    Role.samuel ∈ GOOD_ROLES ∧
    questVoteAction questGame 1 false 5 =
      Except.error "Good players must support the quest" :=
  ⟨rfl, by decide, by decide, rfl, by decide,
    questVote_good_fail_rejected questGame 1 5 questGameSamuel Role.samuel rfl
      (by decide) (by decide) rfl (by decide)⟩

/-! ### C6: continuing from a vote result -/

/-- C6: with the host calling in the vote-result phase: an approved vote
clears quest votes, enters the quest phase and resets the rejection counter;
a rejected vote increments the counter by exactly one, ending the game with
an Evil win on the fifth consecutive rejection (whatever the quest index),
and otherwise advances the leader by one (wrapping), clears the proposal and
votes, and returns to team selection. -/
theorem continueFromVote_spec (g : Game) (pid now : Nat) (p : Player)
    (lvr : VoteResult)
    (hphase : g.phase = Phase.voteResult)
    (hfind : g.players.find? (fun q => q.id == pid) = some p)
    (hhost : p.isHost = true)
    (hlvr : g.lastVoteResult = some lvr) :
    (lvr.approved = true →
      continueFromVote g pid now = .ok { g with
        questVotes := [], phase := Phase.quest, rejectCount := 0,
        updatedAt := now }) ∧
    (lvr.approved = false → 4 ≤ g.rejectCount →
      continueFromVote g pid now = .ok { g with
        rejectCount := g.rejectCount + 1, phase := Phase.gameOver,
        winner := some Winner.evil,
        winReason := some "Five consecutive team proposals were rejected",
        updatedAt := now }) ∧
    (lvr.approved = false → g.rejectCount < 4 →
      continueFromVote g pid now = .ok { g with
        rejectCount := g.rejectCount + 1,
        leaderIndex := (g.leaderIndex + 1) % g.players.length,
        proposedTeam := [], votes := [], phase := Phase.teamSelection,
        updatedAt := now }) := by
  refine ⟨?_, ?_, ?_⟩
  · intro hap
    simp [continueFromVote, hphase, hfind, hhost, hlvr, hap]
  · intro hap hrc
    have h5 : 5 ≤ g.rejectCount + 1 := by omega
    simp [continueFromVote, hphase, hfind, hhost, hlvr, hap, h5]
  · intro hap hrc
    have h5 : ¬ 5 ≤ g.rejectCount + 1 := by omega
    simp [continueFromVote, hphase, hfind, hhost, hlvr, hap, h5]

/-- A six-player game waiting in the vote-result phase after a fifth
consecutive rejection (rejectCount already 4), with quest index 2 active. -/
def cvGame : Game :=
  { code := "G", phase := .voteResult, hostId := 1
    players := [
      { id := 1, name := "A", role := some .samuel, isHost := true,
        connected := true, lastSeen := 0 },
      { id := 2, name := "B", role := some .david, isHost := false,
        connected := true, lastSeen := 0 },
      { id := 3, name := "C", role := some .saul, isHost := false,
        connected := true, lastSeen := 0 },
      { id := 4, name := "D", role := some .phinehas, isHost := false,
        connected := true, lastSeen := 0 },
      { id := 5, name := "E", role := some .mightyMan, isHost := false,
        connected := true, lastSeen := 0 },
      { id := 6, name := "F", role := some .mightyMan, isHost := false,
        connected := true, lastSeen := 0 }]
    currentQuest := 2, questResults := [], leaderIndex := 3
    proposedTeam := [1, 2, 3, 4, 5]
    votes := [(1, true), (2, false), (3, false), (4, false), (5, true), (6, false)]
    questVotes := [], rejectCount := 4
    lastVoteResult := some
      { approved := false, approveCount := 2, rejectCount := 4,
        votes := [(1, true), (2, false), (3, false), (4, false), (5, true),
          (6, false)],
        team := [1, 2, 3, 4, 5] }
    assassinationTarget := none, winner := none, winReason := none
    createdAt := 0, updatedAt := 0 }

/-- The host roster entry of `cvGame`. -/
def cvHost : Player :=
  { id := 1, name := "A", role := some .samuel, isHost := true,
    connected := true, lastSeen := 0 }

/-- The stored tally of `cvGame`. -/
def cvLvr : VoteResult :=
  { approved := false, approveCount := 2, rejectCount := 4,
    votes := [(1, true), (2, false), (3, false), (4, false), (5, true),
      (6, false)],
    team := [1, 2, 3, 4, 5] }

/-- Witness for C6: the fifth consecutive rejection ends the game with an
Evil win even though quest index 2 was active. -/
theorem continueFromVote_spec_witness :
    cvGame.phase = Phase.voteResult ∧
    cvGame.lastVoteResult = some cvLvr ∧
    cvLvr.approved = false ∧
    4 ≤ cvGame.rejectCount ∧
    cvGame.currentQuest = 2 ∧
    continueFromVote cvGame 1 9 = Except.ok { cvGame with
      rejectCount := cvGame.rejectCount + 1, phase := Phase.gameOver,
      winner := some Winner.evil,
      winReason := some "Five consecutive team proposals were rejected",
      updatedAt := 9 } :=
  ⟨rfl, rfl, rfl, by decide, rfl,
    (continueFromVote_spec cvGame 1 9 cvHost cvLvr rfl (by decide) rfl
      rfl).2.1 rfl (by decide)⟩

/-! ### C7: the quest tables and quest resolution -/

/-- C7: the fixed tables are `[3,4,5,6,6]` and `[1,1,1,2,1]`, and the vote
that completes a quest stores a result whose success flag holds iff the
fail count is below the required fails for the current quest index. -/
theorem quest_tables_and_resolution :
    QUEST_SIZES = [3, 4, 5, 6, 6] ∧
    QUEST_FAIL_REQUIREMENTS = [1, 1, 1, 2, 1] ∧
    ∀ g g' pid s now, questVoteAction g pid s now = Except.ok g' →
      g'.phase = Phase.questResult → g.currentQuest ≤ 4 →
      ∃ qr fr, g'.questResults.getLast? = some qr ∧
        QUEST_FAIL_REQUIREMENTS.get? g.currentQuest = some fr ∧
        (qr.success = true ↔ qr.failCount < fr) := by
  refine ⟨rfl, rfl, ?_⟩
  intro g g' pid s now h hres hq
  obtain ⟨fr, hfr⟩ : ∃ fr, QUEST_FAIL_REQUIREMENTS.get? g.currentQuest = some fr := by
    interval_cases hcq : g.currentQuest <;> exact ⟨_, rfl⟩
  unfold questVoteAction at h
  cases hfi : g.players.find? (fun q => q.id == pid) with
  | none =>
    rw [hfi] at h
    split_ifs at h
  | some player =>
    rw [hfi] at h
    simp only [] at h
    split_ifs at h with h1 h2 h3 h4 h5
    · rw [Except.ok.injEq] at h
      subst h
      exact ⟨_, fr, List.getLast?_concat _, hfr, by rw [hfr]; simp⟩
    · rw [Except.ok.injEq] at h
      subst h
      have hphase : g.phase = Phase.quest := not_not.mp h1
      have hres' : g.phase = Phase.questResult := hres
      rw [hphase] at hres'
      exact absurd hres' (by decide)

/-- `questGame` after the sixth member (Saul) submits the only fail vote. -/
def questGameAfter : Game :=
  okOr (questVoteAction questGame 6 false 7) questGame

/-- The quest result `questGameAfter` records. -/
def questGameLastResult : QuestResult :=
  (questGameAfter.questResults.getLast?).getD ⟨false, 0, 0, []⟩

/-- Witness for C7: on quest index 3 a team of six with exactly one fail and
five successes yields a successful quest. -/
theorem quest_tables_and_resolution_witness :
    questVoteAction questGame 6 false 7 = Except.ok questGameAfter ∧
    questGameAfter.phase = Phase.questResult ∧
    questGame.currentQuest = 3 ∧
    (∃ qr fr, questGameAfter.questResults.getLast? = some qr ∧
      QUEST_FAIL_REQUIREMENTS.get? questGame.currentQuest = some fr ∧
      (qr.success = true ↔ qr.failCount < fr)) ∧
    questGameAfter.questResults.getLast? = some questGameLastResult ∧
    questGameLastResult.success = true ∧
    questGameLastResult.failCount = 1 ∧
    questGameLastResult.successCount = 5 :=
  ⟨by decide, by decide, rfl,
    quest_tables_and_resolution.2.2 questGame questGameAfter 6 false 7
      (by decide) (by decide) (by decide),
    by decide, by decide, by decide, by decide⟩

/-! ### C9: behaviour of a finished game

The claim says every action, rejoin included, is rejected once the phase is
`game_over`.  The rejoin handler has no phase check: it succeeds in any
phase, marks the player connected and refreshes the liveness timestamps, so
the claim fails on rejoin; every other action is indeed rejected. -/

/-- The game-logic content of a game record: everything except the advisory
liveness fields (`connected`, `lastSeen`, `updatedAt`, `createdAt`). -/
def coreOf (g : Game) :
    String × Phase × Nat × List (Nat × String × Option Role × Bool) × Nat ×
      List QuestResult × Nat × List Nat × List (Nat × Bool) ×
      List (Nat × Bool) × Nat × Option VoteResult × Option Nat ×
      Option Winner × Option String :=
  (g.code, g.phase, g.hostId,
    g.players.map (fun p => (p.id, p.name, p.role, p.isHost)),
    g.currentQuest, g.questResults, g.leaderIndex, g.proposedTeam,
    g.votes, g.questVotes, g.rejectCount, g.lastVoteResult,
    g.assassinationTarget, g.winner, g.winReason)

/-- Rewriting the first matching roster entry with a liveness-only update
leaves the game-logic projection of the roster unchanged. -/
theorem updateFirst_liveness_map (players : List Player) (pid now : Nat) :
    (updateFirst players pid
      (fun p => { p with connected := true, lastSeen := now })).map
      (fun p => (p.id, p.name, p.role, p.isHost)) =
    players.map (fun p => (p.id, p.name, p.role, p.isHost)) := by
  induction players with
  | nil => rfl
  | cons q rest ih =>
    unfold updateFirst
    by_cases hq : q.id = pid <;> simp [hq, ih]

/-- Amended C9: once the phase is `game_over`, every action except rejoin is
rejected (and, the handlers persisting nothing on a throw, leaves the stored
game unchanged); rejoin is still accepted but only touches the liveness
fields, leaving the game-logic content intact. -/
theorem gameOver_rejects_all_but_rejoin (g : Game)
    (hphase : g.phase = Phase.gameOver) :
    (∀ name now, ∃ e, joinGame g name now = .error e) ∧
    (∀ pid rand leaderPick now, ∃ e,
      startGame g pid rand leaderPick now = .error e) ∧
    (∀ pid team now, ∃ e, proposeTeam g pid team now = .error e) ∧
    (∀ pid approve now, ∃ e, voteAction g pid approve now = .error e) ∧
    (∀ pid now, ∃ e, continueFromVote g pid now = .error e) ∧
    (∀ pid s now, ∃ e, questVoteAction g pid s now = .error e) ∧
    (∀ pid now, ∃ e, continueFromQuest g pid now = .error e) ∧
    (∀ pid targetId now, ∃ e,
      assassinateAction g pid targetId now = .error e) ∧
    (∀ pid now g', rejoinGame g pid now = .ok g' → coreOf g' = coreOf g) := by
  refine ⟨?_, ?_, ?_, ?_, ?_, ?_, ?_, ?_, ?_⟩
  · intro name now
    exact ⟨"Game has already started", by simp [joinGame, hphase]⟩
  · intro pid rand leaderPick now
    by_cases hh : g.hostId = pid
    · exact ⟨"Game has already started", by simp [startGame, hphase, hh]⟩
    · exact ⟨"Only the host can start the game", by simp [startGame, hh]⟩
  · intro pid team now
    exact ⟨"Not in team selection phase", by simp [proposeTeam, hphase]⟩
  · intro pid approve now
    exact ⟨"Not in voting phase", by simp [voteAction, hphase]⟩
  · intro pid now
    exact ⟨"Not in vote result phase", by simp [continueFromVote, hphase]⟩
  · intro pid s now
    exact ⟨"Not in quest phase", by simp [questVoteAction, hphase]⟩
  · intro pid now
    exact ⟨"Not in quest result phase", by simp [continueFromQuest, hphase]⟩
  · intro pid targetId now
    exact ⟨"Not in assassination phase", by simp [assassinateAction, hphase]⟩
  · intro pid now g' h
    unfold rejoinGame at h
    cases hfi : g.players.find? (fun p => p.id == pid) with
    | none => rw [hfi] at h; exact absurd h (by simp)
    | some p =>
      rw [hfi] at h
      rw [Except.ok.injEq] at h
      subst h
      simp [coreOf, updateFirst_liveness_map]

/-- Counterexample to C9 as stated: in the finished example game the rejoin
of disconnected player 2 is accepted and the stored record changes. -/
def rejoinedOverGame : Game :=
  okOr (rejoinGame exampleOverGame 2 99) exampleOverGame

/-- C9 counterexample: rejoin after game over is not rejected and mutates
the stored game (connected flag and timestamps). -/
theorem gameOver_rejoin_counterexample :
    exampleOverGame.phase = Phase.gameOver ∧
    rejoinGame exampleOverGame 2 99 = Except.ok rejoinedOverGame ∧
    rejoinedOverGame ≠ exampleOverGame :=
  ⟨rfl, by decide, by decide⟩

/-- Witness for the amended C9 on the finished example game. -/
theorem gameOver_rejects_all_but_rejoin_witness :
    exampleOverGame.phase = Phase.gameOver ∧
    (∃ e, joinGame exampleOverGame "Zed" 7 = Except.error e) ∧
    (∃ e, voteAction exampleOverGame 1 true 7 = Except.error e) ∧
    coreOf rejoinedOverGame = coreOf exampleOverGame :=
  ⟨rfl,
    (gameOver_rejects_all_but_rejoin exampleOverGame rfl).1 "Zed" 7,
    (gameOver_rejects_all_but_rejoin exampleOverGame rfl).2.2.2.1 1 true 7,
    (gameOver_rejects_all_but_rejoin exampleOverGame rfl).2.2.2.2.2.2.2.2
      2 99 rejoinedOverGame (by decide)⟩

/-! ### C10: the vote-result view never reads a missing record

Supporting lemmas about the JS-object model and the roster, an inductive
invariant over reachable game states, and its preservation by every
action. -/

theorem objKeys_cons (kv : Nat × Bool) (rest : List (Nat × Bool)) :
    objKeys (kv :: rest) = kv.1 :: objKeys rest :=
  rfl

theorem objGet_eq_none_of_not_mem (m : List (Nat × Bool)) (k : Nat)
    (h : objGet m k = none) : k ∉ objKeys m := by
  induction m with
  | nil => simp [objKeys]
  | cons kv rest ih =>
    unfold objGet at h
    by_cases hk : kv.1 = k
    · simp [hk] at h
    · rw [if_neg hk] at h
      rw [objKeys_cons]
      intro hmem
      rcases List.mem_cons.mp hmem with h1 | h1
      · exact hk h1.symm
      · exact ih h h1

theorem objGet_isSome_of_mem (m : List (Nat × Bool)) (k : Nat)
    (h : k ∈ objKeys m) : (objGet m k).isSome = true := by
  induction m with
  | nil => simp [objKeys] at h
  | cons kv rest ih =>
    unfold objGet
    by_cases hk : kv.1 = k
    · simp [hk]
    · rw [if_neg hk]
      apply ih
      rw [objKeys_cons] at h
      rcases List.mem_cons.mp h with h1 | h1
      · exact absurd h1.symm hk
      · exact h1

theorem objSet_of_not_mem (m : List (Nat × Bool)) (k : Nat) (v : Bool)
    (h : objGet m k = none) : objSet m k v = m ++ [(k, v)] := by
  induction m with
  | nil => rfl
  | cons kv rest ih =>
    unfold objGet at h
    unfold objSet
    by_cases hk : kv.1 = k
    · simp [hk] at h
    · rw [if_neg hk] at h
      rw [if_neg hk, ih h]
      rfl

theorem le_foldr_max (l : List Nat) (x : Nat) (hx : x ∈ l) :
    x ≤ l.foldr max 0 := by
  induction l with
  | nil => simp at hx
  | cons y rest ih =>
    rcases List.mem_cons.mp hx with rfl | hx'
    · simp only [List.foldr_cons]
      exact le_max_left _ _
    · simp only [List.foldr_cons]
      exact le_max_of_le_right (ih hx')

/-- The model of `generatePlayerId` never collides with the roster. -/
theorem freshPlayerId_not_mem (g : Game) :
    freshPlayerId g ∉ g.players.map Player.id := by
  intro hmem
  have := le_foldr_max (g.players.map Player.id) _ hmem
  unfold freshPlayerId at this
  omega

theorem updateFirst_map_id (players : List Player) (pid : Nat)
    (f : Player → Player) (hf : ∀ p, (f p).id = p.id) :
    (updateFirst players pid f).map Player.id = players.map Player.id := by
  induction players with
  | nil => rfl
  | cons q rest ih =>
    unfold updateFirst
    by_cases hq : q.id = pid <;> simp [hq, ih, hf]

theorem setRoles_map_id (players : List Player) (roles : List Role) :
    (setRoles players roles).map Player.id = players.map Player.id := by
  induction players generalizing roles with
  | nil => rfl
  | cons q rest ih =>
    cases roles with
    | nil => simp [setRoles, ih]
    | cons r rs => simp [setRoles, ih]

/-- The inductive invariant: roster ids are duplicate-free; during the team
vote the vote map has duplicate-free keys drawn from the roster; in the
vote-result phase the stored tally exists and its vote map covers exactly
the roster ids. -/
def VotesWF (g : Game) : Prop :=
  (g.players.map Player.id).Nodup ∧
  (g.phase = Phase.teamVote →
    (objKeys g.votes).Nodup ∧
    ∀ k ∈ objKeys g.votes, k ∈ g.players.map Player.id) ∧
  (g.phase = Phase.voteResult →
    ∃ lvr, g.lastVoteResult = some lvr ∧
      (∀ p ∈ g.players, (objGet lvr.votes p.id).isSome = true) ∧
      (∀ k ∈ objKeys lvr.votes, k ∈ g.players.map Player.id))

/-- Inserting a fresh key keeps the vote-map keys duplicate-free and inside
the roster. -/
theorem objSet_keys_wf (m : List (Nat × Bool)) (ids : List Nat) (pid : Nat)
    (v : Bool) (hkeys : (objKeys m).Nodup)
    (hsub : ∀ k ∈ objKeys m, k ∈ ids)
    (hnone : objGet m pid = none) (hpid : pid ∈ ids) :
    (objKeys (objSet m pid v)).Nodup ∧
    ∀ k ∈ objKeys (objSet m pid v), k ∈ ids := by
  rw [objSet_of_not_mem m pid v hnone]
  have hnot := objGet_eq_none_of_not_mem m pid hnone
  constructor
  · simp [objKeys, List.map_append]
    rw [List.nodup_append]
    refine ⟨by simpa [objKeys] using hkeys, List.nodup_singleton _, ?_⟩
    intro x hx
    simp only [List.mem_singleton]
    intro hxp
    subst hxp
    exact hnot (by simpa [objKeys] using hx)
  · intro k hk
    simp only [objKeys, List.map_append] at hk
    rcases List.mem_append.mp hk with hk' | hk'
    · exact hsub k hk'
    · simp at hk'
      subst hk'
      exact hpid

theorem votesWF_join (g g' : Game) (name : String) (now : Nat)
    (hw : VotesWF g) (h : joinGame g name now = .ok g') : VotesWF g' := by
  obtain ⟨hnd, htv, hvr⟩ := hw
  unfold joinGame at h
  split_ifs at h with h1 h2 h3
  rw [Except.ok.injEq] at h
  subst h
  have hlobby : g.phase = Phase.lobby := not_not.mp h1
  refine ⟨?_, ?_, ?_⟩ <;> dsimp only
  · rw [List.map_append, List.nodup_append]
    refine ⟨hnd, List.nodup_singleton _, ?_⟩
    intro x hx hmem
    simp only [List.map_cons, List.map_nil, List.mem_singleton] at hmem
    subst hmem
    exact freshPlayerId_not_mem g hx
  · intro hph
    rw [hlobby] at hph
    exact absurd hph (by decide)
  · intro hph
    rw [hlobby] at hph
    exact absurd hph (by decide)

theorem votesWF_rejoin (g g' : Game) (pid now : Nat)
    (hw : VotesWF g) (h : rejoinGame g pid now = .ok g') : VotesWF g' := by
  obtain ⟨hnd, htv, hvr⟩ := hw
  unfold rejoinGame at h
  cases hfi : g.players.find? (fun p => p.id == pid) with
  | none => rw [hfi] at h; exact absurd h (by simp)
  | some p =>
    rw [hfi] at h
    rw [Except.ok.injEq] at h
    subst h
    have hids : (updateFirst g.players pid
        (fun p => { p with connected := true, lastSeen := now })).map Player.id =
        g.players.map Player.id :=
      updateFirst_map_id g.players pid _ (fun _ => rfl)
    refine ⟨?_, ?_, ?_⟩ <;> dsimp only
    · rw [hids]
      exact hnd
    · intro hph
      obtain ⟨hk, hs⟩ := htv hph
      exact ⟨hk, fun k hkm => by rw [hids]; exact hs k hkm⟩
    · intro hph
      obtain ⟨lvr, hl, hcov, hsub⟩ := hvr hph
      refine ⟨lvr, hl, ?_, ?_⟩
      · intro p hp
        have hpm : p.id ∈ (updateFirst g.players pid
            (fun p => { p with connected := true, lastSeen := now })).map
            Player.id := List.mem_map_of_mem Player.id hp
        rw [hids] at hpm
        obtain ⟨q, hq, hqe⟩ := List.mem_map.mp hpm
        rw [← hqe]
        exact hcov q hq
      · intro k hk
        rw [hids]
        exact hsub k hk

theorem votesWF_start (g g' : Game) (pid : Nat) (rand : Nat → Nat)
    (leaderPick now : Nat) (hw : VotesWF g)
    (h : startGame g pid rand leaderPick now = .ok g') : VotesWF g' := by
  obtain ⟨hnd, htv, hvr⟩ := hw
  unfold startGame at h
  split_ifs at h with h1 h2 h3
  cases har : assignRoles rand g.players.length with
  | none => rw [har] at h; exact absurd h (by simp)
  | some roles =>
    rw [har] at h
    rw [Except.ok.injEq] at h
    subst h
    refine ⟨?_, ?_, ?_⟩ <;> dsimp only
    · rw [setRoles_map_id]
      exact hnd
    · intro hph
      exact absurd hph (by decide)
    · intro hph
      exact absurd hph (by decide)

theorem votesWF_propose (g g' : Game) (pid : Nat) (team : List Nat) (now : Nat)
    (hw : VotesWF g) (h : proposeTeam g pid team now = .ok g') : VotesWF g' := by
  obtain ⟨hnd, htv, hvr⟩ := hw
  unfold proposeTeam at h
  cases hle : g.players.get? g.leaderIndex with
  | none =>
    rw [hle] at h
    simp only [] at h
    split_ifs at h
  | some leader =>
    rw [hle] at h
    simp only [] at h
    split_ifs at h with h1 h2 h3 h4
    rw [Except.ok.injEq] at h
    subst h
    refine ⟨?_, ?_, ?_⟩ <;> dsimp only
    · exact hnd
    · intro _
      exact ⟨by simp [objKeys], by simp [objKeys]⟩
    · intro hph
      exact absurd hph (by decide)

theorem keys_cover (keys ids : List Nat) (hkn : keys.Nodup)
    (hsub : ∀ k ∈ keys, k ∈ ids) (hlen : keys.length = ids.length) :
    ∀ x ∈ ids, x ∈ keys := by
  have hsp : List.Subperm keys ids :=
    List.subperm_of_subset hkn (fun k hk => hsub k hk)
  obtain ⟨l, hlp, hls⟩ := hsp
  have hleq : l = ids := hls.eq_of_length (by rw [hlp.length_eq, hlen])
  intro x hx
  rw [← hleq] at hx
  exact hlp.mem_iff.mp hx

theorem votesWF_vote (g g' : Game) (pid : Nat) (ap : Bool) (now : Nat)
    (hw : VotesWF g) (h : voteAction g pid ap now = .ok g') : VotesWF g' := by
  obtain ⟨hnd, htv, hvr⟩ := hw
  unfold voteAction at h
  split_ifs at h with h1 h2 h3
  simp only [] at h
  have hg : g.phase = Phase.teamVote := not_not.mp h1
  obtain ⟨hkeys, hsub⟩ := htv hg
  have hnone : objGet g.votes pid = none := Option.not_isSome_iff_eq_none.mp h3
  have hpid : pid ∈ g.players.map Player.id := by
    rw [List.any_eq_true] at h2
    obtain ⟨p, hp, hpe⟩ := h2
    simp only [beq_iff_eq] at hpe
    exact hpe ▸ List.mem_map_of_mem Player.id hp
  have hwf := objSet_keys_wf g.votes (g.players.map Player.id) pid ap hkeys
    hsub hnone hpid
  split at h
  · rename_i hlen
    rw [Except.ok.injEq] at h
    subst h
    refine ⟨hnd, ?_, ?_⟩
    · intro hph
      simp at hph
    · intro _
      refine ⟨_, rfl, ?_, hwf.2⟩
      have hlen' : (objKeys (objSet g.votes pid ap)).length =
          (g.players.map Player.id).length := by
        rw [List.length_map]
        exact hlen
      have hcov := keys_cover _ _ hwf.1 hwf.2 hlen'
      intro p hp
      exact objGet_isSome_of_mem _ _ (hcov p.id (List.mem_map_of_mem Player.id hp))
  · rw [Except.ok.injEq] at h
    subst h
    refine ⟨hnd, ?_, ?_⟩
    · intro _
      exact hwf
    · intro hph
      have hph' : g.phase = Phase.voteResult := hph
      rw [hg] at hph'
      exact absurd hph' (by decide)

theorem votesWF_continueVote (g g' : Game) (pid now : Nat)
    (hw : VotesWF g) (h : continueFromVote g pid now = .ok g') : VotesWF g' := by
  obtain ⟨hnd, htv, hvr⟩ := hw
  unfold continueFromVote at h
  cases hfi : g.players.find? (fun p => p.id == pid) <;>
    cases hlv : g.lastVoteResult <;>
    rw [hfi, hlv] at h <;>
    simp only [] at h
  · split_ifs at h
  · split_ifs at h
  · split_ifs at h
  · split_ifs at h with h1 h2 h3 h4 <;>
      (rw [Except.ok.injEq] at h; subst h;
       refine ⟨hnd, ?_, ?_⟩ <;> (intro hph; simp at hph))

theorem votesWF_questVote (g g' : Game) (pid : Nat) (s : Bool) (now : Nat)
    (hw : VotesWF g) (h : questVoteAction g pid s now = .ok g') : VotesWF g' := by
  obtain ⟨hnd, htv, hvr⟩ := hw
  unfold questVoteAction at h
  cases hfi : g.players.find? (fun q => q.id == pid) with
  | none =>
    rw [hfi] at h
    split_ifs at h
  | some player =>
    rw [hfi] at h
    simp only [] at h
    split_ifs at h with h1 h2 h3 h4 h5
    · rw [Except.ok.injEq] at h
      subst h
      refine ⟨hnd, ?_, ?_⟩ <;> (intro hph; simp at hph)
    · rw [Except.ok.injEq] at h
      subst h
      have hg : g.phase = Phase.quest := not_not.mp h1
      refine ⟨hnd, ?_, ?_⟩
      · intro hph
        have hph' : g.phase = Phase.teamVote := hph
        rw [hg] at hph'
        exact absurd hph' (by decide)
      · intro hph
        have hph' : g.phase = Phase.voteResult := hph
        rw [hg] at hph'
        exact absurd hph' (by decide)

theorem votesWF_continueQuest (g g' : Game) (pid now : Nat)
    (hw : VotesWF g) (h : continueFromQuest g pid now = .ok g') : VotesWF g' := by
  obtain ⟨hnd, htv, hvr⟩ := hw
  unfold continueFromQuest at h
  cases hfi : g.players.find? (fun p => p.id == pid) with
  | none =>
    rw [hfi] at h
    split_ifs at h
  | some p =>
    rw [hfi] at h
    simp only [] at h
    split_ifs at h with h1 h2 h3 h4 <;>
      (rw [Except.ok.injEq] at h; subst h;
       refine ⟨hnd, ?_, ?_⟩ <;> (intro hph; simp at hph))

theorem votesWF_assassinate (g g' : Game) (pid targetId now : Nat)
    (hw : VotesWF g) (h : assassinateAction g pid targetId now = .ok g') :
    VotesWF g' := by
  obtain ⟨hnd, htv, hvr⟩ := hw
  unfold assassinateAction at h
  cases hfi : g.players.find? (fun p => p.id == pid) with
  | none =>
    rw [hfi] at h
    split_ifs at h
  | some p =>
    rw [hfi] at h
    simp only [] at h
    cases hft : g.players.find? (fun q => q.id == targetId) with
    | none =>
      rw [hft] at h
      split_ifs at h
    | some t =>
      rw [hft] at h
      simp only [] at h
      split_ifs at h with h1 h2 h3 <;>
        (rw [Except.ok.injEq] at h; subst h;
         refine ⟨hnd, ?_, ?_⟩ <;> (intro hph; simp at hph))

theorem votesWF_step (g g' : Game) (a : Action) (hw : VotesWF g)
    (h : applyAction g a = .ok g') : VotesWF g' := by
  cases a with
  | join name now => exact votesWF_join g g' name now hw h
  | rejoin pid now => exact votesWF_rejoin g g' pid now hw h
  | start pid rand leaderPick now =>
    exact votesWF_start g g' pid rand leaderPick now hw h
  | propose pid team now => exact votesWF_propose g g' pid team now hw h
  | vote pid approve now => exact votesWF_vote g g' pid approve now hw h
  | continueVote pid now => exact votesWF_continueVote g g' pid now hw h
  | questVote pid s now => exact votesWF_questVote g g' pid s now hw h
  | continueQuest pid now => exact votesWF_continueQuest g g' pid now hw h
  | assassinate pid targetId now =>
    exact votesWF_assassinate g g' pid targetId now hw h

theorem votesWF_init (hostName : String) (hostId : Nat) (gameCode : String)
    (now : Nat) : VotesWF (createGame hostName hostId gameCode now) := by
  refine ⟨by simp [createGame], ?_, ?_⟩ <;>
    (intro hph; simp [createGame] at hph)

/-- Every reachable game state satisfies the invariant. -/
theorem reachable_votesWF (g : Game) (hr : Reachable g) : VotesWF g := by
  induction hr with
  | init hostName hostId gameCode now =>
    exact votesWF_init hostName hostId gameCode now
  | step a hr2 hok ih => exact votesWF_step _ _ a ih hok

/-- If the stored tally exists whenever the phase is vote-result, the public
view projection cannot hit the missing-record crash. -/
theorem getPublicGameState_isSome (g : Game) (viewerId : Nat)
    (hlvr : g.phase = Phase.voteResult → g.lastVoteResult.isSome = true) :
    (getPublicGameState g viewerId).isSome = true := by
  unfold getPublicGameState
  cases hf : g.players.find? (fun p => p.id == viewerId) with
  | none => simp
  | some player =>
    by_cases hph : g.phase = Phase.voteResult
    · obtain ⟨lvr, hl⟩ := Option.isSome_iff_exists.mp (hlvr hph)
      simp [hph, hl]
    · simp [hph]

/-- C10: in every game state reachable from a fresh game by accepted
actions, whenever the phase is vote-result the `lastVoteResult` record
exists, its votes map has an entry for every roster player and no key
outside the roster, and consequently `getPublicGameState` (whose
vote-result branch reads `lastVoteResult.votes` for every roster player)
never accesses a missing record, for any viewer. -/
theorem voteResult_view_safe (g : Game) (hr : Reachable g) :
    (g.phase = Phase.voteResult →
      ∃ lvr, g.lastVoteResult = some lvr ∧
        (∀ p ∈ g.players, (objGet lvr.votes p.id).isSome = true) ∧
        (∀ k ∈ objKeys lvr.votes, k ∈ g.players.map Player.id)) ∧
    (∀ viewerId, (getPublicGameState g viewerId).isSome = true) := by
  have hw := reachable_votesWF g hr
  refine ⟨hw.2.2, ?_⟩
  intro viewerId
  apply getPublicGameState_isSome
  intro hph
  obtain ⟨lvr, hl, _, _⟩ := hw.2.2 hph
  rw [hl]
  rfl

/-- Did the action go through? -/
def isOkEx (e : Except String Game) : Bool :=
  match e with
  | .ok _ => true
  | .error _ => false

/-- Successful actions keep a game reachable (helper for building concrete
reachable states). -/
theorem reachable_okOr (g : Game) (a : Action) (hr : Reachable g)
    (h : isOkEx (applyAction g a) = true) :
    Reachable (okOr (applyAction g a) g) := by
  cases he : applyAction g a with
  | ok g2 =>
    exact Reachable.step a hr he
  | error e =>
    rw [he] at h
    simp [isOkEx] at h

/-- A concrete play-through: host Ann creates the game, five players join,
the host starts, proposes the first team of three, and all six approve. -/
def wgChain : List Action :=
  [Action.join "B" 1, Action.join "C" 2, Action.join "D" 3,
   Action.join "E" 4, Action.join "F" 5,
   Action.start 1 (fun _ => 0) 0 6,
   Action.propose 1 [1, 2, 3] 7,
   Action.vote 1 true 8, Action.vote 2 true 9, Action.vote 3 true 10,
   Action.vote 4 true 11, Action.vote 5 true 12, Action.vote 6 true 13]

/-- Run a sequence of actions, keeping the old state on a rejection. -/
def runActions (g : Game) : List Action → Game
  | [] => g
  | a :: rest => runActions (okOr (applyAction g a) g) rest

/-- The vote-result state the play-through ends in. -/
def wgFinal : Game :=
  runActions (createGame "A" 1 "G" 0) wgChain

/-- The play-through state is reachable. -/
theorem wgFinal_reachable : Reachable wgFinal := by
  have h0 : Reachable (createGame "A" 1 "G" 0) := Reachable.init "A" 1 "G" 0
  have h1 := reachable_okOr _ (Action.join "B" 1) h0 (by decide)
  have h2 := reachable_okOr _ (Action.join "C" 2) h1 (by decide)
  have h3 := reachable_okOr _ (Action.join "D" 3) h2 (by decide)
  have h4 := reachable_okOr _ (Action.join "E" 4) h3 (by decide)
  have h5 := reachable_okOr _ (Action.join "F" 5) h4 (by decide)
  have h6 := reachable_okOr _ (Action.start 1 (fun _ => 0) 0 6) h5 (by decide)
  have h7 := reachable_okOr _ (Action.propose 1 [1, 2, 3] 7) h6 (by decide)
  have h8 := reachable_okOr _ (Action.vote 1 true 8) h7 (by decide)
  have h9 := reachable_okOr _ (Action.vote 2 true 9) h8 (by decide)
  have h10 := reachable_okOr _ (Action.vote 3 true 10) h9 (by decide)
  have h11 := reachable_okOr _ (Action.vote 4 true 11) h10 (by decide)
  have h12 := reachable_okOr _ (Action.vote 5 true 12) h11 (by decide)
  have h13 := reachable_okOr _ (Action.vote 6 true 13) h12 (by decide)
  exact h13

/-- Witness for C10 on the concrete play-through, which ends in the
vote-result phase. -/
theorem voteResult_view_safe_witness :
    wgFinal.phase = Phase.voteResult ∧
    (∃ lvr, wgFinal.lastVoteResult = some lvr ∧
      (∀ p ∈ wgFinal.players, (objGet lvr.votes p.id).isSome = true) ∧
      (∀ k ∈ objKeys lvr.votes, k ∈ wgFinal.players.map Player.id)) ∧
    (∀ viewerId, (getPublicGameState wgFinal viewerId).isSome = true) :=
  ⟨by decide,
    (voteResult_view_safe wgFinal wgFinal_reachable).1 (by decide),
    (voteResult_view_safe wgFinal wgFinal_reachable).2⟩

end MightyMen
